import Mathlib

/-
Verification of the agent-orchestration core of the Claude telegram bot
(src/bot.py) against its natural-language specification.

The Python source is shallowly embedded: the relevant pure fragments of
bot.py are translated into executable Lean definitions over lists of
characters (Python strings) and explicit state records (the module-level
dictionaries), and the spec claims are settled as theorems about those
definitions.  Source line references below are to src/bot.py.
-/

/- ===================== Python string primitives ===================== -/

/-- Character list of a string literal. -/
def s2l (s : String) : List Char := s.data

/-- Python whitespace predicate (ASCII range of str.strip and regex back-slash-s). -/
def pyWs (c : Char) : Bool :=
  c = ' ' || c = '\t' || c = '\n' || c = '\r' || c = '\x0b' || c = '\x0c'

/-- Python str.lstrip with default whitespace. -/
def pyLstrip (cs : List Char) : List Char := cs.dropWhile pyWs

/-- Python str.rstrip with default whitespace. -/
def pyRstrip (cs : List Char) : List Char := (cs.reverse.dropWhile pyWs).reverse

/-- Python str.strip with default whitespace. -/
def pyStripL (cs : List Char) : List Char := pyRstrip (pyLstrip cs)

/-- Boolean test that pat is a leading fragment of cs (Python str.startswith). -/
def startsWithL (cs pat : List Char) : Bool :=
  match cs, pat with
  | _, [] => true
  | [], _ :: _ => false
  | c :: cs, p :: ps => c = p && startsWithL cs ps

/-- Consume a literal pattern from the head of a character list, returning the
remainder on success (helper for the regex embeddings). -/
def dropLit (pat cs : List Char) : Option (List Char) :=
  match pat, cs with
  | [], rest => some rest
  | _ :: _, [] => none
  | p :: ps, c :: rest => if c = p then dropLit ps rest else none

/-- Python substring containment (the in operator on str). -/
def containsSub (cs pat : List Char) : Bool :=
  if startsWithL cs pat then true
  else
    match cs with
    | [] => false
    | _ :: t => containsSub t pat

/-- Split a character list at the first newline, dropping the separator; the
second component is empty when there is no newline (Python str.partition with
a newline separator, keeping only the before and after parts). -/
def partitionNl (cs : List Char) : List Char × List Char :=
  match cs with
  | [] => ([], [])
  | '\n' :: rest => ([], rest)
  | c :: rest =>
      let (a, b) := partitionNl rest
      (c :: a, b)

/-- Python str.lstrip with an explicit newline argument. -/
def lstripNlOnly (cs : List Char) : List Char := cs.dropWhile (fun c => c = '\n')

/- ===================== C8: terminal result event ===================== -/

/-- Embedding of the result-event branch of run_claude_streaming
(src/bot.py lines 1155-1161): a non-empty result replaces the running
accumulated text exactly when its length is at least the accumulated length. -/
def resultEventUpdate (accumulated result : List Char) : List Char :=
  if result ≠ [] then
    if accumulated.length ≤ result.length then result else accumulated
  else accumulated

/-- C8: when a terminal result event carries text at least as long as the
running accumulated text, the accumulated text is replaced by the result text;
when the result text is strictly shorter, the accumulated text is unchanged.
The first case also covers the empty-result guard of the source: an empty
result can only be at least as long as an empty accumulator, where replacing
and keeping coincide. -/
theorem C8_result_supersedes (acc res : List Char) :
    (acc.length ≤ res.length → resultEventUpdate acc res = res) ∧
    (res.length < acc.length → resultEventUpdate acc res = acc) := by
  constructor
  · intro h
    unfold resultEventUpdate
    by_cases hres : res = []
    · subst hres
      simp at h
      simp [h]
    · simp [hres, h]
  · intro h
    unfold resultEventUpdate
    by_cases hres : res = []
    · simp [hres]
    · have : ¬ acc.length ≤ res.length := by omega
      simp [hres, this]

/-- Witness for C8 at concrete inputs: a longer result replaces the
accumulator, a shorter result is ignored. -/
theorem C8_result_supersedes_witness :
    resultEventUpdate (s2l "ab") (s2l "abc") = s2l "abc" ∧
    resultEventUpdate (s2l "ab") (s2l "a") = s2l "ab" := by
  constructor
  · exact (C8_result_supersedes (s2l "ab") (s2l "abc")).1 (by decide)
  · exact (C8_result_supersedes (s2l "ab") (s2l "a")).2 (by decide)

/- ===================== Quota reset-time parsing (C3, C9) ===================== -/

/-- Fallback wait of one hour (src/bot.py line 2419). -/
def QUOTA_WAIT_SECONDS : Int := 3600

/-- Trigger literals of the reset-time regex _RESET_TIME_RE
(src/bot.py lines 2423-2426); only the first letter is case-insensitive in
the pattern, and the optional dot of the later-variant is expanded greedily
first, matching the alternation order of the regex. -/
def resetTriggers : List (List Char) :=
  [s2l "Try again at", s2l "try again at",
   s2l "Try again after", s2l "try again after",
   s2l "Try again later. or try again at", s2l "try again later. or try again at",
   s2l "Try again later or try again at", s2l "try again later or try again at",
   s2l "Resets at", s2l "resets at",
   s2l "Reset at", s2l "reset at"]

/-- Try each trigger literal at the head of the list, returning the remainder
after the first one that matches. -/
def matchTriggerAt (cs : List Char) : Option (List Char) :=
  (resetTriggers.map (fun t => dropLit t cs)).foldr (fun o acc => o.orElse (fun _ => acc)) none

/-- Capture group of the reset-time regex applied to the text that follows the
whitespace run after a trigger: the lazy capture group together with the optional
trailing dot and trailing whitespace of the pattern amounts to removing
trailing whitespace and then at most one trailing dot, except that a capture
must stay non-empty. -/
def resetCapture (afterWs : List Char) : List Char :=
  let r1 := pyRstrip afterWs
  if r1.getLast? = some '.' then
    let r2 := r1.dropLast
    if r2 = [] then r1 else r2
  else r1

/-- Attempt a full regex match at this position: a trigger literal, then the
greedy whitespace run of at least one character — which, like the regex
back-slash-s, may cross newlines — then the capture, which the dot of the
pattern confines to the line on which the run stops.  When everything after
the trigger is whitespace, backtracking into the run leaves a capture of one
whitespace character, the latest one that is not itself a newline; with no
such character the match fails at this position. -/
def resetMatchAt (cs : List Char) : Option (List Char) :=
  match matchTriggerAt cs with
  | none => none
  | some tl =>
      let wsRun := tl.takeWhile pyWs
      let afterWs := tl.dropWhile pyWs
      if wsRun = [] then none
      else if afterWs = [] then
        match ((wsRun.drop 1).filter (fun c => ¬ c = '\n')).getLast? with
        | some c => some [c]
        | none => none
      else some (resetCapture (afterWs.takeWhile (fun c => ¬ c = '\n')))

/-- Scan the whole message left to right for the first position where the
reset-time pattern matches, mirroring the leftmost-match rule of re.search;
the multiline flag only affects where the anchor of the pattern may match,
which resetMatchAt already accounts for. -/
def resetScan (cs : List Char) : Option (List Char) :=
  match resetMatchAt cs with
  | some t => some t
  | none =>
      match cs with
      | [] => none
      | _ :: t => resetScan t

/-- Embedding of the search with _RESET_TIME_RE followed by group(1).strip()
(src/bot.py lines 2435-2439). -/
def resetTimeExtract (msg : List Char) : Option (List Char) :=
  (resetScan msg).map pyStripL

/-- Numeric value of a decimal digit character. -/
def digitVal (c : Char) : Nat := c.toNat - 48

/-- Embedding of the strptime directive for a 12-hour field: the alternation
1[0-2], then 0[1-9], then a single 1-9, applied greedily in that order. -/
def parseHour12 : List Char → Option (Nat × List Char)
  | '1' :: c :: rest =>
      if c = '0' ∨ c = '1' ∨ c = '2' then some (10 + digitVal c, rest)
      else some (1, c :: rest)
  | '0' :: c :: rest =>
      if '1' ≤ c ∧ c ≤ '9' then some (digitVal c, rest) else none
  | c :: rest =>
      if '1' ≤ c ∧ c ≤ '9' then some (digitVal c, rest) else none
  | [] => none

/-- Embedding of the strptime minute directive: two digits 00-59, otherwise a
single digit. -/
def parseMin : List Char → Option (Nat × List Char)
  | a :: b :: rest =>
      if ('0' ≤ a ∧ a ≤ '5') ∧ b.isDigit then some (digitVal a * 10 + digitVal b, rest)
      else if a.isDigit then some (digitVal a, b :: rest)
      else none
  | [a] => if a.isDigit then some (digitVal a, []) else none
  | [] => none

/-- Embedding of the strptime day-of-month directive: 3[01], [12] followed by
a digit, 0[1-9], then a single 1-9, in that order. -/
def parseDay : List Char → Option (Nat × List Char)
  | '3' :: c :: rest =>
      if c = '0' ∨ c = '1' then some (30 + digitVal c, rest)
      else some (3, c :: rest)
  | c :: b :: rest =>
      if (c = '1' ∨ c = '2') ∧ b.isDigit then some (digitVal c * 10 + digitVal b, rest)
      else if c = '0' then (if '1' ≤ b ∧ b ≤ '9' then some (digitVal b, rest) else none)
      else if '1' ≤ c ∧ c ≤ '9' then some (digitVal c, b :: rest)
      else none
  | [c] => if '1' ≤ c ∧ c ≤ '9' then some (digitVal c, []) else none
  | [] => none

/-- Four-digit year directive. -/
def parseYear4 : List Char → Option (Int × List Char)
  | a :: b :: c :: d :: rest =>
      if a.isDigit ∧ b.isDigit ∧ c.isDigit ∧ d.isDigit then
        some ((digitVal a * 1000 + digitVal b * 100 + digitVal c * 10 + digitVal d : Nat), rest)
      else none
  | _ => none

/-- Meridiem directive, case-insensitive as under re.IGNORECASE; returns true
for the PM half of the day. -/
def parseAmPm : List Char → Option (Bool × List Char)
  | c1 :: c2 :: rest =>
      if c2.toLower = 'm' then
        if c1.toLower = 'a' then some (false, rest)
        else if c1.toLower = 'p' then some (true, rest)
        else none
      else none
  | _ => none

/-- Whitespace run of at least one character, as strptime compiles literal
whitespace in a format string. -/
def dropWs1 (cs : List Char) : Option (List Char) :=
  match cs with
  | c :: rest => if pyWs c then some (rest.dropWhile pyWs) else none
  | [] => none

/-- Hour and minute combined into seconds of day with the strptime meridiem
conversion. -/
def tod12 (h m : Nat) (pm : Bool) : Nat :=
  let h24 := if pm then (if h = 12 then 12 else h + 12) else (if h = 12 then 0 else h)
  h24 * 3600 + m * 60

/-- Embedding of strptime with format percent-I colon percent-M space
percent-p, requiring the whole string to be consumed; returns seconds of day. -/
def parseTime12Full (cs : List Char) : Option Nat := do
  let (h, r1) ← parseHour12 cs
  let r2 ← dropLit [':'] r1
  let (m, r3) ← parseMin r2
  let r4 ← dropWs1 r3
  let (pm, r5) ← parseAmPm r4
  if r5 = [] then some (tod12 h m pm) else none

/-- Month names: abbreviated then full, each with its month number; matching
is case-insensitive under re.IGNORECASE. -/
def monthAbbrs : List (List Char × Nat) :=
  [(s2l "jan", 1), (s2l "feb", 2), (s2l "mar", 3), (s2l "apr", 4),
   (s2l "may", 5), (s2l "jun", 6), (s2l "jul", 7), (s2l "aug", 8),
   (s2l "sep", 9), (s2l "oct", 10), (s2l "nov", 11), (s2l "dec", 12)]

/-- Full month names with month numbers. -/
def monthFulls : List (List Char × Nat) :=
  [(s2l "january", 1), (s2l "february", 2), (s2l "march", 3), (s2l "april", 4),
   (s2l "may", 5), (s2l "june", 6), (s2l "july", 7), (s2l "august", 8),
   (s2l "september", 9), (s2l "october", 10), (s2l "november", 11), (s2l "december", 12)]

/-- Case-insensitive literal consumption. -/
def dropLitCI (pat cs : List Char) : Option (List Char) :=
  match pat, cs with
  | [], rest => some rest
  | _ :: _, [] => none
  | p :: ps, c :: rest => if c.toLower = p then dropLitCI ps rest else none

/-- Match one month name from a table. -/
def parseMonth (table : List (List Char × Nat)) (cs : List Char) : Option (Nat × List Char) :=
  (table.map (fun pr => (dropLitCI pr.1 cs).map (fun r => (pr.2, r)))).foldr
    (fun o acc => o.orElse (fun _ => acc)) none

/-- Gregorian leap-year rule, as the datetime module applies it. -/
def isLeapYear (y : Int) : Bool :=
  y % 4 = 0 ∧ (y % 100 ≠ 0 ∨ y % 400 = 0)

/-- Number of days of a month of a year; zero for an out-of-range month. -/
def daysInMonth (y : Int) (m : Nat) : Nat :=
  if m = 1 then 31
  else if m = 2 then (if isLeapYear y then 29 else 28)
  else if m = 3 then 31
  else if m = 4 then 30
  else if m = 5 then 31
  else if m = 6 then 30
  else if m = 7 then 31
  else if m = 8 then 31
  else if m = 9 then 30
  else if m = 10 then 31
  else if m = 11 then 30
  else if m = 12 then 31
  else 0

/-- Embedding of strptime with the month-name date formats of
_parse_reset_wait (src/bot.py lines 2443-2444): month name, whitespace,
day, a literal comma, whitespace, four-digit year, whitespace, the 12-hour
time, whitespace, meridiem; whole string consumed.  The datetime
constructor inside strptime then validates the calendar date — the year
must be at least one and the day must exist in that month of that year
(February the 30th raises ValueError) — and an invalid date fails the
format.  Returns year, month, day and seconds of day. -/
def parseDateFmt (table : List (List Char × Nat)) (cs : List Char) :
    Option (Int × Nat × Nat × Nat) := do
  let (mo, r1) ← parseMonth table cs
  let r2 ← dropWs1 r1
  let (d, r3) ← parseDay r2
  let r4 ← dropLit [','] r3
  let r5 ← dropWs1 r4
  let (y, r6) ← parseYear4 r5
  let r7 ← dropWs1 r6
  let (h, r8) ← parseHour12 r7
  let r9 ← dropLit [':'] r8
  let (mi, r10) ← parseMin r9
  let r11 ← dropWs1 r10
  let (pm, r12) ← parseAmPm r11
  if r12 = [] ∧ 1 ≤ y ∧ d ≤ daysInMonth y mo then some (y, mo, d, tod12 h mi pm)
  else none

/-- Embedding of the strptime attempt chain of _parse_reset_wait
(src/bot.py lines 2443-2458): the time-only format is tried first and yields
the strptime default date of January 1st 1900; the format with a
non-portable dash directive always raises ValueError and is skipped; then
the two month-name formats are tried.  Returns year, month, day and seconds
of day of the first format that parses. -/
def strptimeChain (cs : List Char) : Option (Int × Nat × Nat × Nat) :=
  match parseTime12Full cs with
  | some tod => some (1900, 1, 1, tod)
  | none =>
      match parseDateFmt monthAbbrs cs with
      | some r => some r
      | none => parseDateFmt monthFulls cs

/-- Civil calendar day number of a date (days since the 1970 epoch), used to
give datetime subtraction an absolute timeline. -/
def daysFromCivil (y : Int) (m d : Nat) : Int :=
  let yy : Int := if m ≤ 2 then y - 1 else y
  let era : Int := (if 0 ≤ yy then yy else yy - 399) / 400
  let yoe : Int := yy - era * 400
  let mp : Int := ((m : Int) + 9) % 12
  let doy : Int := (153 * mp + 2) / 5 + (d : Int) - 1
  let doe : Int := yoe * 365 + yoe / 4 - yoe / 100 + doy
  era * 146097 + doe - 719468

/-- Current datetime at whole-second resolution: the civil date of today plus
seconds of day (datetime.now of the source; sub-second precision is dropped,
which is the rounding tolerance the claims allow). -/
structure PyNow where
  year : Int
  month : Nat
  day : Nat
  secOfDay : Nat

/-- Absolute seconds of a PyNow value. -/
def nowAbs (n : PyNow) : Int :=
  daysFromCivil n.year n.month n.day * 86400 + (n.secOfDay : Int)

/-- Embedding of _parse_reset_wait (src/bot.py lines 2429-2460): extract a
reset time expression; parse it with the format chain; a year of 1900 means
only a time of day was given, which is placed on the current day and rolled
to the next day when already past; the wait is clamped below at sixty
seconds; every failure path returns the one-hour default. -/
def parseResetWait (msg : List Char) (now : PyNow) : Int × Option (List Char) :=
  match resetTimeExtract msg with
  | none => (QUOTA_WAIT_SECONDS, none)
  | some ts =>
      match strptimeChain ts with
      | none => (QUOTA_WAIT_SECONDS, some ts)
      | some (y, mo, d, tod) =>
          let parsedAbs : Int :=
            if y = 1900 then
              let p := daysFromCivil now.year now.month now.day * 86400 + (tod : Int)
              if p < nowAbs now then p + 86400 else p
            else daysFromCivil y mo d * 86400 + (tod : Int)
          let wait := parsedAbs - nowAbs now
          (if wait < 60 then 60 else wait, some ts)


/-- C3: for a message from which a reset time of day is extracted, the wait is
the interval from now to that time of day today when it is still at least a
minute in the future, and to that time of day tomorrow when it is already
past (by at least the minute that the lower clamp of the source absorbs);
when no reset time can be extracted, or the extracted expression parses with
no format, the fixed default of 3600 seconds is returned. -/
theorem C3_reset_wait_semantics (msg : List Char) (now : PyNow) (ts : List Char) (tod : Nat) :
    (resetTimeExtract msg = some ts →
      strptimeChain ts = some (1900, 1, 1, tod) →
      ((now.secOfDay + 60 ≤ tod →
          (parseResetWait msg now).1 = (tod : Int) - (now.secOfDay : Int)) ∧
       (tod < now.secOfDay → now.secOfDay - tod ≤ 86340 →
          (parseResetWait msg now).1 = 86400 + (tod : Int) - (now.secOfDay : Int)))) ∧
    (resetTimeExtract msg = none → (parseResetWait msg now).1 = 3600) ∧
    (resetTimeExtract msg = some ts → strptimeChain ts = none →
      (parseResetWait msg now).1 = 3600) := by
  refine ⟨?_, ?_, ?_⟩
  · intro hext hch
    have hred : (parseResetWait msg now).1 =
        (let p : Int := daysFromCivil now.year now.month now.day * 86400 + (tod : Int)
         let p2 : Int := if p < nowAbs now then p + 86400 else p
         let w : Int := p2 - nowAbs now
         if w < 60 then 60 else w) := by
      simp [parseResetWait, hext, hch]
    rw [hred]
    simp only [nowAbs]
    constructor
    · intro hfut
      split_ifs with h1 h2 <;> omega
    · intro hpast hnear
      split_ifs with h1 h2 <;> omega
  · intro hext
    simp [parseResetWait, hext, QUOTA_WAIT_SECONDS]
  · intro hext hch
    simp [parseResetWait, hext, hch, QUOTA_WAIT_SECONDS]

/-- Witness for C3 at concrete inputs: at three in the afternoon a message
with reset time a quarter to four yields a 2700 second wait; at four in the
afternoon the same message yields the wait to that time tomorrow; and a
message whose whitespace separates the trigger from the time with a newline
is extracted across that newline just the same. -/
theorem C3_reset_wait_semantics_witness :
    (parseResetWait (s2l "Quota exceeded. Try again at 3:45 PM.") ⟨2026, 10, 12, 54000⟩).1 = 2700 ∧
    (parseResetWait (s2l "Quota exceeded. Try again at 3:45 PM.") ⟨2026, 10, 12, 57600⟩).1 = 85500 ∧
    (parseResetWait (s2l "Try again at\n3:45 PM") ⟨2026, 10, 12, 54000⟩).1 = 2700 := by
  refine ⟨?_, ?_, ?_⟩
  · have h := ((C3_reset_wait_semantics (s2l "Quota exceeded. Try again at 3:45 PM.")
      ⟨2026, 10, 12, 54000⟩ (s2l "3:45 PM") 56700).1 (by decide) (by decide)).1 (by decide)
    rw [h]
    decide
  · have h := ((C3_reset_wait_semantics (s2l "Quota exceeded. Try again at 3:45 PM.")
      ⟨2026, 10, 12, 57600⟩ (s2l "3:45 PM") 56700).1 (by decide) (by decide)).2
      (by decide) (by decide)
    rw [h]
    decide
  · have h := ((C3_reset_wait_semantics (s2l "Try again at\n3:45 PM")
      ⟨2026, 10, 12, 54000⟩ (s2l "3:45 PM") 56700).1 (by decide) (by decide)).1 (by decide)
    rw [h]
    decide

/-- C9: for every input message and every current time, _parse_reset_wait
returns a wait of at least sixty seconds — a successfully parsed reset time
has its computed wait clamped up to the sixty second minimum, and both
failure paths (no expression extracted, or an extracted expression that no
format parses) return the 3600 second default. -/
theorem C9_reset_wait_minimum (msg : List Char) (now : PyNow) :
    60 ≤ (parseResetWait msg now).1 ∧
    (resetTimeExtract msg = none → (parseResetWait msg now).1 = QUOTA_WAIT_SECONDS) ∧
    (∀ ts, resetTimeExtract msg = some ts → strptimeChain ts = none →
      (parseResetWait msg now).1 = QUOTA_WAIT_SECONDS) := by
  refine ⟨?_, ?_, ?_⟩
  · unfold parseResetWait
    cases hext : resetTimeExtract msg with
    | none => simp [QUOTA_WAIT_SECONDS]
    | some ts =>
        cases hch : strptimeChain ts with
        | none => simp [hch, QUOTA_WAIT_SECONDS]
        | some r =>
            obtain ⟨y, mo, d, tod⟩ := r
            simp only [hch]
            split_ifs <;> omega
  · intro hext
    simp [parseResetWait, hext]
  · intro ts hext hch
    simp [parseResetWait, hext, hch]

/-- Witness for C9 at concrete inputs: an unrelated message takes the
extraction failure path and returns the default; an extracted expression
naming the calendar-invalid date of February the 30th fails every strptime
format and also returns the default; and a reset time seconds away is
clamped to at least a minute. -/
theorem C9_reset_wait_minimum_witness :
    (parseResetWait (s2l "model overloaded") ⟨2026, 10, 12, 54000⟩).1 = QUOTA_WAIT_SECONDS ∧
    (parseResetWait (s2l "Try again at Feb 30, 2026 3:45 PM")
      ⟨2026, 10, 12, 54000⟩).1 = QUOTA_WAIT_SECONDS ∧
    60 ≤ (parseResetWait (s2l "Try again at 3:45 PM") ⟨2026, 10, 12, 56695⟩).1 := by
  refine ⟨?_, ?_, ?_⟩
  · exact (C9_reset_wait_minimum (s2l "model overloaded") ⟨2026, 10, 12, 54000⟩).2.1 (by decide)
  · exact (C9_reset_wait_minimum (s2l "Try again at Feb 30, 2026 3:45 PM")
      ⟨2026, 10, 12, 54000⟩).2.2 (s2l "Feb 30, 2026 3:45 PM") (by decide) (by decide)
  · exact (C9_reset_wait_minimum (s2l "Try again at 3:45 PM") ⟨2026, 10, 12, 56695⟩).1

/- ===================== Single-reviewer (JustDoIt) loop (C1, C4, C5) ===================== -/

/-- Digits-only natural number literal. -/
def parseDigitsNat (cs : List Char) : Option Nat :=
  if cs = [] then none
  else if cs.all Char.isDigit then some (cs.foldl (fun a c => a * 10 + digitVal c) 0)
  else none

/-- Embedding of the Python int constructor on an already stripped string:
an optional sign followed by at least one digit. -/
def parseIntPy (cs : List Char) : Option Int :=
  match cs with
  | '-' :: ds => (parseDigitsNat ds).map (fun n => -(n : Int))
  | '+' :: ds => (parseDigitsNat ds).map (fun n => (n : Int))
  | ds => (parseDigitsNat ds).map (fun n => (n : Int))

/-- Embedding of the pure decision part of run_codex_review
(src/bot.py lines 2660-2722): the mapping from the reviewer subprocess
standard output to the returned triple of next prompt, done flag and
reasoning.  The subprocess launch, its stderr error path and the logging are
environmental and outside this pure fragment.  Faithful details: the DONE,
QUOTA, PHASE and VERIFY checks happen in this order on the stripped output;
a PHASE or VERIFY line with an empty target falls through all checks and is
returned as an ordinary next prompt with empty reasoning. -/
def runCodexReviewParse (stdout0 : List Char) : Option (List Char) × Bool × List Char :=
  let output := pyStripL stdout0
  if output = [] then (none, false, s2l "Codex produced no output")
  else if startsWithL output (s2l "DONE") then
    (none, true, lstripNlOnly (pyStripL (output.drop 4)))
  else if startsWithL output (s2l "QUOTA:") then
    let fr := partitionNl output
    let waitStr := pyStripL (fr.1.drop 6)
    let details := if pyStripL fr.2 = [] then s2l "no details" else pyStripL fr.2
    let waitMin : Int :=
      match parseIntPy waitStr with
      | some n => max 1 n
      | none => 60
    (none, false, s2l "QUOTA:" ++ Nat.toDigits 10 waitMin.toNat ++ [' '] ++ details.take 200)
  else if startsWithL output (s2l "PHASE:") then
    let fr := partitionNl output
    let newPhase := pyStripL (fr.1.drop 6)
    let prompt := pyStripL fr.2
    if newPhase ≠ [] ∧ prompt ≠ [] then (some prompt, false, s2l "PHASE:" ++ newPhase)
    else if newPhase ≠ [] then
      (some (s2l "Continue with the " ++ newPhase ++ s2l " phase."), false, s2l "PHASE:" ++ newPhase)
    else (some output, false, [])
  else if startsWithL output (s2l "VERIFY:") then
    let fr := partitionNl output
    let target := pyStripL (fr.1.drop 7)
    let prompt := pyStripL fr.2
    if target ≠ [] ∧ prompt ≠ [] then (some prompt, false, s2l "VERIFY:" ++ target)
    else if target ≠ [] then
      (some (s2l "Please verify that all work is complete and report any issues."), false,
       s2l "VERIFY:" ++ target)
    else (some output, false, [])
  else (some output, false, [])

/-- Loop-local state of run_justdoit_loop (src/bot.py lines 3041-3050)
together with the active flag of the justdoit_active entry.  The Claude
invocations, compaction, plan file and outward messages are environmental;
cancellation is not exercised, so the active flag only turns false when the
loop itself stops. -/
structure JState where
  running : Bool
  phase : List Char
  pendingTransition : Option (List Char)
  verifyAttempts : Nat
  step : Nat
  codexFailStreak : Nat
  recentCodexActions : List (List Char × List Char)
  currentPrompt : List Char
  deriving DecidableEq, Repr

/-- Initial loop state for a task (src/bot.py lines 3041-3050). -/
def justdoitInit (task : List Char) : JState :=
  { running := true
    phase := s2l "implementing"
    pendingTransition := none
    verifyAttempts := 0
    step := 0
    codexFailStreak := 0
    recentCodexActions := []
    currentPrompt := task }

/-- The three phase names of the single-reviewer loop. -/
def isLoopPhase (t : List Char) : Bool :=
  t = s2l "implementing" ∨ t = s2l "reviewing" ∨ t = s2l "testing"

/-- Embedding of the phase-transition handler of the main iteration
(src/bot.py lines 3294-3304): any reasoning that starts with the PHASE
marker and names one of the three phases is adopted, the verification
counter is reset and the loop-detection window is cleared. -/
def jdApplyPhase (s : JState) (r : List Char) : JState :=
  if startsWithL r (s2l "PHASE:") then
    let newPhase := pyStripL (r.drop 6)
    if isLoopPhase newPhase then
      { s with phase := newPhase, verifyAttempts := 0, recentCodexActions := [] }
    else s
  else s

/-- Embedding of the verification handler of the main iteration
(src/bot.py lines 3306-3326).  The returned flag records that the loop broke
(the forced-done case).  On the third verification request the transition to
the requested target is forced, or the loop finishes when the target is
done; otherwise the target becomes the pending transition. -/
def jdApplyVerify (s : JState) (r : List Char) : JState × Bool :=
  if startsWithL r (s2l "VERIFY:") then
    let target := pyStripL (r.drop 7)
    let va := s.verifyAttempts + 1
    if 3 ≤ va then
      if isLoopPhase target then ({ s with phase := target, verifyAttempts := 0 }, false)
      else if target = s2l "done" then ({ s with verifyAttempts := va, running := false }, true)
      else ({ s with verifyAttempts := 0 }, false)
    else ({ s with verifyAttempts := va, pendingTransition := some target }, false)
  else (s, false)

/-- Embedding of the phase-transition handler that runs after a quota retry
(src/bot.py lines 3367-3374); unlike the main handler it does not clear the
loop-detection window. -/
def jdApplyPhasePostQuota (s : JState) (r : List Char) : JState :=
  if startsWithL r (s2l "PHASE:") then
    let newPhase := pyStripL (r.drop 6)
    if isLoopPhase newPhase then { s with phase := newPhase, verifyAttempts := 0 }
    else s
  else s

/-- Embedding of the verification handler that runs after a quota retry
(src/bot.py lines 3376-3389); unlike the main handler it has no finish case
for a done target. -/
def jdApplyVerifyPostQuota (s : JState) (r : List Char) : JState :=
  if startsWithL r (s2l "VERIFY:") then
    let target := pyStripL (r.drop 7)
    let va := s.verifyAttempts + 1
    if 3 ≤ va then
      if isLoopPhase target then { s with phase := target, verifyAttempts := 0 }
      else { s with verifyAttempts := 0 }
    else { s with verifyAttempts := va, pendingTransition := some target }
  else s

/-- Embedding of the reviewer-failure tail of the iteration
(src/bot.py lines 3391-3407): with no next prompt the failure streak grows
and three consecutive failures stop the loop, otherwise a default prompt is
substituted; with a next prompt the streak resets and the prompt is adopted. -/
def jdApplyTail (s : JState) (np : Option (List Char)) : JState :=
  match np with
  | none =>
      let streak := s.codexFailStreak + 1
      if 3 ≤ streak then { s with codexFailStreak := streak, running := false }
      else { s with codexFailStreak := streak,
                    currentPrompt := s2l "Continue implementing the next unfinished item from the plan." }
  | some p => { s with codexFailStreak := 0, currentPrompt := p }

/-- Embedding of the decision handling of one iteration of the while loop of
run_justdoit_loop (src/bot.py lines 3271-3410), after the reviewer triple of
next prompt, done flag and reasoning has been obtained: the pending
transition reset, the loop-detection window bookkeeping, the PHASE, VERIFY,
DONE and QUOTA handling and the failure-streak tail.  The second scripted
output feeds the single reviewer retry of the quota branch
(src/bot.py lines 3351-3354); the rate-limit wait is modelled as completing
because cancellation is not exercised. -/
def justdoitStepCore (s1 : JState) (np : Option (List Char)) (isDone : Bool)
    (r : List Char) (retryStdout : List Char) : JState :=
  let s2 := { s1 with pendingTransition := none }
    let actionKey := if r = [] then s2l "continue" else r.take 30
    let ra := s2.recentCodexActions ++ [(actionKey, (np.getD []).take 50)]
    let s3 := { s2 with recentCodexActions := if 6 < ra.length then ra.drop 1 else ra }
    if isDone then { s3 with running := false }
    else
      let s4 := jdApplyPhase s3 r
      let vb := jdApplyVerify s4 r
      if vb.2 then vb.1
      else
        let s5 := vb.1
        if np = none ∧ startsWithL r (s2l "QUOTA:") then
          let pr2 := runCodexReviewParse retryStdout
          let s6 := { s5 with pendingTransition := none }
          if pr2.2.1 then { s6 with running := false }
          else
            let s7 := jdApplyPhasePostQuota s6 pr2.2.2
            let s8 := jdApplyVerifyPostQuota s7 pr2.2.2
            jdApplyTail s8 pr2.1
        else jdApplyTail s5 np

/-- One iteration: the cancellation poll, the step counter increment, the
reviewer call on the scripted output and the decision handling of the core. -/
def justdoitStep (s : JState) (stdout retryStdout : List Char) : JState :=
  if ¬ s.running then s
  else
    let pr := runCodexReviewParse stdout
    justdoitStepCore { s with step := s.step + 1 } pr.1 pr.2.1 pr.2.2 retryStdout

/-- Scripted run of the loop: fold the step over a list of reviewer outputs,
with an empty retry script. -/
def justdoitRun (s : JState) (outs : List (List Char)) : JState :=
  outs.foldl (fun st o => justdoitStep st o []) s

/-- A list starting with one character cannot start with a different one. -/
theorem startsWithL_ne_head (r : List Char) (p q : Char) (ps qs : List Char) (hpq : p ≠ q)
    (h : startsWithL r (p :: ps) = true) : startsWithL r (q :: qs) = false := by
  cases r with
  | nil => simp [startsWithL] at h
  | cons c t =>
      simp only [startsWithL, Bool.and_eq_true, decide_eq_true_eq] at h
      simp only [startsWithL, Bool.and_eq_false_iff, decide_eq_false_iff_not]
      left
      intro hcq
      exact hpq (by rw [← h.1, hcq])

/-- The failure tail never changes the phase. -/
theorem jdApplyTail_phase (s : JState) (np : Option (List Char)) :
    (jdApplyTail s np).phase = s.phase := by
  cases np with
  | none =>
      simp only [jdApplyTail]
      split_ifs <;> rfl
  | some p => rfl

/-- The failure tail applied to a present next prompt only resets the streak
and adopts the prompt. -/
theorem jdApplyTail_some (s : JState) (p : List Char) :
    jdApplyTail s (some p) = { s with codexFailStreak := 0, currentPrompt := p } := rfl

/-- Reduction of a step of the loop under a parsed reviewer triple. -/
theorem justdoitStep_eq (s : JState) (out retry : List Char)
    (np : Option (List Char)) (d : Bool) (r : List Char)
    (hrun : s.running = true) (hp : runCodexReviewParse out = (np, d, r)) :
    justdoitStep s out retry = justdoitStepCore { s with step := s.step + 1 } np d r retry := by
  simp [justdoitStep, hrun, hp]

/-- C1 counterexample: from the initial state, with no verification pending,
a scripted reviewer reply starting with the PHASE marker transitions the
phase immediately — the claim says it must be ignored without a pending
verification. -/
theorem C1_phase_without_verify_counterexample :
    (justdoitInit (s2l "add a health check")).pendingTransition = none ∧
    (justdoitInit (s2l "add a health check")).phase = s2l "implementing" ∧
    (justdoitStep (justdoitInit (s2l "add a health check"))
        (s2l "PHASE:reviewing\nBegin the code review.") []).phase = s2l "reviewing" := by
  decide

/-- C1 amended: in the single-reviewer loop a reviewer reply whose reasoning
carries the PHASE marker transitions to the named phase whenever it is one
of the three loop phases, regardless of any pending verification; a PHASE
reply naming anything else leaves the phase unchanged.  The verification
gating exists only as prompt instructions to the reviewer. -/
theorem C1_phase_transition_unconditional (s : JState) (out retry p r : List Char)
    (hrun : s.running = true)
    (hp : runCodexReviewParse out = (some p, false, r))
    (hph : startsWithL r (s2l "PHASE:") = true) :
    (isLoopPhase (pyStripL (r.drop 6)) = true →
      (justdoitStep s out retry).phase = pyStripL (r.drop 6)) ∧
    (isLoopPhase (pyStripL (r.drop 6)) = false →
      (justdoitStep s out retry).phase = s.phase) := by
  have hV : startsWithL r (s2l "VERIFY:") = false :=
    startsWithL_ne_head r 'P' 'V' (s2l "HASE:") (s2l "ERIFY:") (by decide) hph
  have hQ : startsWithL r (s2l "QUOTA:") = false :=
    startsWithL_ne_head r 'P' 'Q' (s2l "HASE:") (s2l "UOTA:") (by decide) hph
  rw [justdoitStep_eq s out retry (some p) false r hrun hp]
  constructor
  · intro hval
    simp [justdoitStepCore, jdApplyVerify, jdApplyPhase, hV, hQ, hph, hval, jdApplyTail]
  · intro hval
    simp [justdoitStepCore, jdApplyVerify, jdApplyPhase, hV, hQ, hph, hval, jdApplyTail]

/-- Witness for the C1 amended theorem: a state with a pending verification
toward testing accepts a PHASE reply toward reviewing just the same. -/
theorem C1_phase_transition_unconditional_witness :
    (justdoitStep { justdoitInit (s2l "t") with pendingTransition := some (s2l "testing") }
        (s2l "PHASE:reviewing\nGo.") []).phase = s2l "reviewing" := by
  have h := (C1_phase_transition_unconditional
      { justdoitInit (s2l "t") with pendingTransition := some (s2l "testing") }
      (s2l "PHASE:reviewing\nGo.") [] (s2l "Go.") (s2l "PHASE:reviewing")
      rfl (by decide) (by decide)).1 (by decide)
  rw [h]
  decide

/-- A benign reviewer reply (a plain next instruction: next prompt present,
not done, empty reasoning) keeps the loop running and increments the step
counter. -/
theorem justdoitStep_benign (s : JState) (out p : List Char)
    (hrun : s.running = true) (hp : runCodexReviewParse out = (some p, false, [])) :
    (justdoitStep s out []).running = true ∧ (justdoitStep s out []).step = s.step + 1 := by
  rw [justdoitStep_eq s out [] (some p) false [] hrun hp]
  have h1 : startsWithL ([] : List Char) (s2l "PHASE:") = false := by decide
  have h2 : startsWithL ([] : List Char) (s2l "VERIFY:") = false := by decide
  have h3 : startsWithL ([] : List Char) (s2l "QUOTA:") = false := by decide
  constructor
  · simp [justdoitStepCore, jdApplyPhase, jdApplyVerify, jdApplyTail, h1, h2, h3, hrun]
  · simp [justdoitStepCore, jdApplyPhase, jdApplyVerify, jdApplyTail, h1, h2, h3]

/-- C4 counterexample: twenty-five consecutive scripted reviewer replies that
are plain instructions leave the single-reviewer loop running with its step
counter at twenty-five, past the claimed ceiling of about twenty — the loop
has no step ceiling. -/
theorem C4_no_ceiling_counterexample :
    (justdoitRun (justdoitInit (s2l "task"))
        (List.replicate 25 (s2l "Keep refactoring the module as planned."))).running = true ∧
    (justdoitRun (justdoitInit (s2l "task"))
        (List.replicate 25 (s2l "Keep refactoring the module as planned."))).step = 25 ∧
    20 < 25 := by
  decide

/-- C4 amended: the single-reviewer loop has no hard step ceiling — for every
number of steps, a run scripted with plain-instruction reviewer replies is
still running with the step counter equal to that number; the twenty step
abort belongs to the three-role omni loop, not to this one. -/
theorem C4_justdoit_unbounded (out p task : List Char)
    (hp : runCodexReviewParse out = (some p, false, [])) :
    ∀ k, (justdoitRun (justdoitInit task) (List.replicate k out)).running = true ∧
         (justdoitRun (justdoitInit task) (List.replicate k out)).step = k := by
  suffices h : ∀ k s, s.running = true →
      (justdoitRun s (List.replicate k out)).running = true ∧
      (justdoitRun s (List.replicate k out)).step = s.step + k by
    intro k
    have hk := h k (justdoitInit task) rfl
    exact ⟨hk.1, by rw [hk.2]; simp [justdoitInit]⟩
  intro k
  induction k with
  | zero =>
      intro s hs
      refine ⟨by simpa [justdoitRun] using hs, by simp [justdoitRun]⟩
  | succ n ih =>
      intro s hs
      have hstep := justdoitStep_benign s out p hs hp
      have hsplit : justdoitRun s (List.replicate (n + 1) out) =
          justdoitRun (justdoitStep s out []) (List.replicate n out) := by
        simp [justdoitRun, List.replicate_succ]
      rw [hsplit]
      have hrec := ih (justdoitStep s out []) hstep.1
      exact ⟨hrec.1, by rw [hrec.2, hstep.2]; omega⟩

/-- Witness for the C4 amended theorem at a concrete scripted run of three
plain instructions. -/
theorem C4_justdoit_unbounded_witness :
    (justdoitRun (justdoitInit (s2l "t"))
        (List.replicate 3 (s2l "Keep working on the plan."))).running = true := by
  exact (C4_justdoit_unbounded (s2l "Keep working on the plan.")
    (s2l "Keep working on the plan.") (s2l "t") (by decide) 3).1

/-- C5 counterexample: three consecutive verification requests with three
pairwise different targets (reviewing, testing, done) still trip the
threshold — the third one forces completion even though no target was
requested twice, so the counter is not kept per transition target. -/
theorem C5_not_per_target_counterexample :
    (justdoitRun (justdoitInit (s2l "task"))
        [s2l "VERIFY:reviewing\nCheck the plan items.",
         s2l "VERIFY:testing\nCheck the tests."]).running = true ∧
    (justdoitRun (justdoitInit (s2l "task"))
        [s2l "VERIFY:reviewing\nCheck the plan items.",
         s2l "VERIFY:testing\nCheck the tests."]).verifyAttempts = 2 ∧
    (justdoitRun (justdoitInit (s2l "task"))
        [s2l "VERIFY:reviewing\nCheck the plan items.",
         s2l "VERIFY:testing\nCheck the tests.",
         s2l "VERIFY:done\nRun all tests again."]).running = false := by
  decide

/-- C5 amended: the loop keeps a single verification-attempt counter, not one
per target: it counts verification requests of any target since the last
phase transition; on the third request the loop forces the transition to the
target of that request (or finishes when that target is done), and the
counter resets on a phase transition. -/
theorem C5_single_verify_counter (s : JState) (out retry p r t : List Char)
    (hrun : s.running = true)
    (hp : runCodexReviewParse out = (some p, false, r))
    (hv : startsWithL r (s2l "VERIFY:") = true)
    (ht : pyStripL (r.drop 7) = t) :
    (s.verifyAttempts + 1 < 3 →
      (justdoitStep s out retry).pendingTransition = some t ∧
      (justdoitStep s out retry).verifyAttempts = s.verifyAttempts + 1 ∧
      (justdoitStep s out retry).phase = s.phase ∧
      (justdoitStep s out retry).running = true) ∧
    (3 ≤ s.verifyAttempts + 1 → isLoopPhase t = true →
      (justdoitStep s out retry).phase = t ∧
      (justdoitStep s out retry).verifyAttempts = 0 ∧
      (justdoitStep s out retry).pendingTransition = none ∧
      (justdoitStep s out retry).running = true) ∧
    (3 ≤ s.verifyAttempts + 1 → t = s2l "done" →
      (justdoitStep s out retry).running = false) ∧
    (∀ out2 p2 r2, runCodexReviewParse out2 = (some p2, false, r2) →
      startsWithL r2 (s2l "PHASE:") = true →
      isLoopPhase (pyStripL (r2.drop 6)) = true →
      (justdoitStep s out2 retry).verifyAttempts = 0) := by
  have hP : startsWithL r (s2l "PHASE:") = false :=
    startsWithL_ne_head r 'V' 'P' (s2l "ERIFY:") (s2l "HASE:") (by decide) hv
  have hQ : startsWithL r (s2l "QUOTA:") = false :=
    startsWithL_ne_head r 'V' 'Q' (s2l "ERIFY:") (s2l "UOTA:") (by decide) hv
  have hstep := justdoitStep_eq s out retry (some p) false r hrun hp
  refine ⟨?_, ?_, ?_, ?_⟩
  · intro hlt
    rw [hstep]
    have hnot : ¬ (3 ≤ s.verifyAttempts + 1) := by omega
    simp [justdoitStepCore, jdApplyPhase, jdApplyVerify, jdApplyTail, hP, hQ, hv, ht, hnot, hrun]
  · intro hge hphase
    rw [hstep]
    simp [justdoitStepCore, jdApplyPhase, jdApplyVerify, jdApplyTail, hP, hQ, hv, ht, hge,
      hphase, hrun]
  · intro hge hdone
    rw [hstep]
    have hnp : isLoopPhase (s2l "done") = false := by decide
    simp [justdoitStepCore, jdApplyPhase, jdApplyVerify, jdApplyTail, hP, hQ, hv, ht, hge,
      hnp, hdone]
  · intro out2 p2 r2 hp2 hph2 hval2
    have hV2 : startsWithL r2 (s2l "VERIFY:") = false :=
      startsWithL_ne_head r2 'P' 'V' (s2l "HASE:") (s2l "ERIFY:") (by decide) hph2
    have hQ2 : startsWithL r2 (s2l "QUOTA:") = false :=
      startsWithL_ne_head r2 'P' 'Q' (s2l "HASE:") (s2l "UOTA:") (by decide) hph2
    rw [justdoitStep_eq s out2 retry (some p2) false r2 hrun hp2]
    simp [justdoitStepCore, jdApplyPhase, jdApplyVerify, jdApplyTail, hV2, hQ2, hph2, hval2]

/-- Witness for the C5 amended theorem: with two prior verification attempts,
one further verification request toward done finishes the loop. -/
theorem C5_single_verify_counter_witness :
    (justdoitStep { justdoitInit (s2l "t") with verifyAttempts := 2 }
        (s2l "VERIFY:done\nRun all tests.") []).running = false := by
  exact (C5_single_verify_counter { justdoitInit (s2l "t") with verifyAttempts := 2 }
    (s2l "VERIFY:done\nRun all tests.") [] (s2l "Run all tests.") (s2l "VERIFY:done")
    (s2l "done") rfl (by decide) (by decide) (by decide)).2.2.1 (by decide) (by decide)

/- ===================== C10: cancel acts on the active session only ===================== -/

/-- The module-level state touched by the cancel command (src/bot.py lines
55-65): loop-state dictionaries keyed by chat and session, the execution
slots and message queues keyed by session id, and the set of explicitly
cancelled sessions.  An execution-slot entry is either the placeholder of a
not-yet-spawned process or a process id. -/
structure CancelState where
  justdoitActive : String → Option Bool
  deepreviewActive : String → Option Bool
  omniActive : String → Option Bool
  activeProcesses : String → Option (Option Nat)
  messageQueue : String → List (List Char)
  cancelledSessions : String → Bool

/-- Flag clearing of the cancel handler: an active loop state at the key is
deactivated, anything else is untouched (src/bot.py lines 4455-4463). -/
def clearActiveFlag (m : String → Option Bool) (key : String) : String → Option Bool :=
  fun x => if x = key then (match m key with | some true => some false | v => v) else m x

/-- Embedding of the cancel command handler (src/bot.py lines 4445-4521) for
the chat whose active session is the given one: the three loop flags under
the chat-and-session key are cleared, the session id is marked cancelled,
and when the execution slot of that session holds a live process it is
killed and the slot entry removed; a placeholder slot is left in place, as
the falsy check of the source skips it.  The returned list holds the killed
process ids.  Outward messages are environmental and not modelled. -/
def handleCancel (st : CancelState) (chatId : String) (sessionOpt : Option String) :
    CancelState × List Nat :=
  match sessionOpt with
  | none => (st, [])
  | some sid =>
      let key := chatId ++ ":" ++ sid
      let st1 : CancelState :=
        { st with
          justdoitActive := clearActiveFlag st.justdoitActive key
          deepreviewActive := clearActiveFlag st.deepreviewActive key
          omniActive := clearActiveFlag st.omniActive key }
      let st2 : CancelState :=
        { st1 with cancelledSessions := fun x => if x = sid then true else st1.cancelledSessions x }
      match st.activeProcesses sid with
      | some (some pid) =>
          ({ st2 with activeProcesses := fun x => if x = sid then none else st2.activeProcesses x },
           [pid])
      | _ => (st2, [])

/-- C10: the cancel command acts only on the currently-active session of the
chat — the loop flags of every other chat-and-session key, the execution
slots and cancelled marks of every other session id, and every message queue
are left unchanged; every killed process is the one registered under that
session id; and the loop flags of the cancelled key are no longer active
while the session is marked cancelled. -/
theorem C10_cancel_only_active_session (st : CancelState) (chatId sid : String) :
    (∀ k, k ≠ chatId ++ ":" ++ sid →
      (handleCancel st chatId (some sid)).1.justdoitActive k = st.justdoitActive k ∧
      (handleCancel st chatId (some sid)).1.deepreviewActive k = st.deepreviewActive k ∧
      (handleCancel st chatId (some sid)).1.omniActive k = st.omniActive k) ∧
    (∀ s, s ≠ sid →
      (handleCancel st chatId (some sid)).1.activeProcesses s = st.activeProcesses s ∧
      (handleCancel st chatId (some sid)).1.cancelledSessions s = st.cancelledSessions s) ∧
    (∀ s, (handleCancel st chatId (some sid)).1.messageQueue s = st.messageQueue s) ∧
    (∀ pid, pid ∈ (handleCancel st chatId (some sid)).2 →
      st.activeProcesses sid = some (some pid)) ∧
    ((handleCancel st chatId (some sid)).1.justdoitActive (chatId ++ ":" ++ sid) ≠ some true ∧
     (handleCancel st chatId (some sid)).1.omniActive (chatId ++ ":" ++ sid) ≠ some true ∧
     (handleCancel st chatId (some sid)).1.cancelledSessions sid = true) := by
  have hclear : ∀ (m : String → Option Bool) (key k : String), k ≠ key →
      clearActiveFlag m key k = m k := by
    intro m key k hk
    simp [clearActiveFlag, hk]
  have hclearAt : ∀ (m : String → Option Bool) (key : String),
      clearActiveFlag m key key ≠ some true := by
    intro m key
    simp only [clearActiveFlag, if_pos rfl]
    cases hmk : m key with
    | none => simp
    | some b => cases b <;> simp
  refine ⟨?_, ?_, ?_, ?_, ?_, ?_, ?_⟩
  · intro k hk
    cases hap : st.activeProcesses sid with
    | none => simp [handleCancel, hap, hclear _ _ _ hk]
    | some e =>
        cases e with
        | none => simp [handleCancel, hap, hclear _ _ _ hk]
        | some pid => simp [handleCancel, hap, hclear _ _ _ hk]
  · intro s hs
    cases hap : st.activeProcesses sid with
    | none => simp [handleCancel, hap, hs]
    | some e =>
        cases e with
        | none => simp [handleCancel, hap, hs]
        | some pid => simp [handleCancel, hap, hs]
  · intro s
    cases hap : st.activeProcesses sid with
    | none => simp [handleCancel, hap]
    | some e =>
        cases e with
        | none => simp [handleCancel, hap]
        | some pid => simp [handleCancel, hap]
  · intro pid hpid
    cases hap : st.activeProcesses sid with
    | none => simp [handleCancel, hap] at hpid
    | some e =>
        cases e with
        | none => simp [handleCancel, hap] at hpid
        | some q =>
            simp [handleCancel, hap] at hpid
            subst hpid
            rfl
  · cases hap : st.activeProcesses sid with
    | none => simpa [handleCancel, hap] using hclearAt st.justdoitActive (chatId ++ ":" ++ sid)
    | some e =>
        cases e with
        | none => simpa [handleCancel, hap] using hclearAt st.justdoitActive (chatId ++ ":" ++ sid)
        | some pid =>
            simpa [handleCancel, hap] using hclearAt st.justdoitActive (chatId ++ ":" ++ sid)
  · cases hap : st.activeProcesses sid with
    | none => simpa [handleCancel, hap] using hclearAt st.omniActive (chatId ++ ":" ++ sid)
    | some e =>
        cases e with
        | none => simpa [handleCancel, hap] using hclearAt st.omniActive (chatId ++ ":" ++ sid)
        | some pid =>
            simpa [handleCancel, hap] using hclearAt st.omniActive (chatId ++ ":" ++ sid)
  · cases hap : st.activeProcesses sid with
    | none => simp [handleCancel, hap]
    | some e =>
        cases e with
        | none => simp [handleCancel, hap]
        | some pid => simp [handleCancel, hap]

/-- A concrete two-session state for the C10 witness: both sessions have an
active justdoit loop, a live process, and session b has a queued message. -/
def c10DemoState : CancelState :=
  { justdoitActive := fun k => if k = "1:a" then some true else if k = "1:b" then some true else none
    deepreviewActive := fun _ => none
    omniActive := fun k => if k = "1:b" then some true else none
    activeProcesses := fun s => if s = "a" then some (some 7) else if s = "b" then some (some 9) else none
    messageQueue := fun s => if s = "b" then [s2l "queued message"] else []
    cancelledSessions := fun _ => false }

/-- Witness for C10 at the concrete state: cancelling session a of chat 1
leaves the loop flag, the process and the queue of session b unchanged,
kills only process 7, and deactivates and marks session a. -/
theorem C10_cancel_only_active_session_witness :
    (handleCancel c10DemoState "1" (some "a")).1.justdoitActive "1:b" = some true ∧
    (handleCancel c10DemoState "1" (some "a")).1.activeProcesses "b" = some (some 9) ∧
    (handleCancel c10DemoState "1" (some "a")).1.messageQueue "b" = [s2l "queued message"] ∧
    (∀ pid, pid ∈ (handleCancel c10DemoState "1" (some "a")).2 →
      c10DemoState.activeProcesses "a" = some (some pid)) ∧
    (handleCancel c10DemoState "1" (some "a")).1.justdoitActive "1:a" ≠ some true ∧
    (handleCancel c10DemoState "1" (some "a")).1.cancelledSessions "a" = true := by
  have h := C10_cancel_only_active_session c10DemoState "1" "a"
  refine ⟨?_, ?_, ?_, h.2.2.2.1, h.2.2.2.2.1, h.2.2.2.2.2.2⟩
  · rw [(h.1 "1:b" (by decide)).1]
    rfl
  · rw [(h.2.1 "b" (by decide)).1]
    rfl
  · rw [h.2.2.1 "b"]
    rfl

/- ===================== C2: per-session trigger concurrency ===================== -/

/-- Program counter of one invocation worker thread for a session: running the
agent invocation, about to drain the queue after the invocation returned, or
finished. -/
inductive WorkerPc where
  | running
  | draining
  | done
  deriving DecidableEq, Repr

/-- One worker thread spawned for a free-text trigger or a queue drain. -/
structure Worker where
  msg : List Char
  pc : WorkerPc
  deriving DecidableEq, Repr

/-- Shared coordination state of one session id: whether the session id is
present in active_processes (the execution slot), its message queue, the
worker threads, the queued-notices sent to the caller (message and queue
position), and the list of messages whose invocation has started, in start
order. -/
structure CoordState where
  occupied : Bool
  queue : List (List Char)
  workers : List Worker
  queuedNotices : List (List Char × Nat)
  started : List (List Char)
  deriving DecidableEq, Repr

/-- Initial coordination state of an idle session. -/
def coordInit : CoordState :=
  { occupied := false, queue := [], workers := [], queuedNotices := [], started := [] }

/-- Atomic events of the concurrency model for a single session id.  Each
event is one of the atomic regions of the source: trigger is the locked
check-and-set block of handle_message, finish is the slot release at the end
of run_claude_streaming, which runs without the session lock, and drain is
the locked block of process_message_queue that the same worker thread runs
afterwards. -/
inductive CoordEvent where
  | trigger (m : List Char)
  | finish (i : Nat)
  | drain (i : Nat)
  deriving DecidableEq, Repr

/-- Set the program counter of worker i. -/
def setWorkerPc (ws : List Worker) (i : Nat) (pc : WorkerPc) : List Worker :=
  ws.mapIdx (fun j w => if j = i then { w with pc := pc } else w)

/-- One atomic step of the session concurrency protocol, embedded from the
source.  trigger: the locked region of handle_message (src/bot.py lines
5085-5108) — if the slot is occupied the text joins the queue and the caller
is told the position, otherwise the slot is marked and an invocation worker
starts (the memory-pressure refusal path is not exercised).  finish: the end
of run_claude_streaming (src/bot.py line 1185) pops the execution slot with
no lock held; the worker then proceeds toward the queue drain.  drain: the
locked region of process_message_queue (src/bot.py lines 5014-5021) — with
no occupancy re-check, a non-empty queue pops its head, marks the slot and
starts a new invocation worker.  Events that do not match a worker in the
required program counter are ignored. -/
def coordStep (st : CoordState) (e : CoordEvent) : CoordState :=
  match e with
  | .trigger m =>
      if st.occupied then
        { st with queue := st.queue ++ [m]
                  queuedNotices := st.queuedNotices ++ [(m, st.queue.length + 1)] }
      else
        { st with occupied := true
                  workers := st.workers ++ [⟨m, .running⟩]
                  started := st.started ++ [m] }
  | .finish i =>
      match st.workers.get? i with
      | some w =>
          if w.pc = .running then
            { st with occupied := false, workers := setWorkerPc st.workers i .draining }
          else st
      | none => st
  | .drain i =>
      match st.workers.get? i with
      | some w =>
          if w.pc = .draining then
            match st.queue with
            | [] => { st with workers := setWorkerPc st.workers i .done }
            | q :: rest =>
                { st with occupied := true
                          queue := rest
                          workers := setWorkerPc st.workers i .done ++ [⟨q, .running⟩]
                          started := st.started ++ [q] }
          else st
      | none => st

/-- Run a trace of events from the idle state. -/
def coordRun (es : List CoordEvent) : CoordState :=
  es.foldl coordStep coordInit

/-- Number of agent invocations in flight: workers still in their invocation. -/
def inflight (st : CoordState) : Nat :=
  (st.workers.filter (fun w => w.pc = .running)).length

/-- C2 as evaluated on the failing interleaving: trigger A starts an
invocation; trigger B is queued at position one; A finishes and its slot
release (outside any lock) marks the session idle; trigger C sees the free
slot and starts; the finished worker then drains the queue, which starts B
without re-checking occupancy — two invocations are now in flight at the
same instant, refuting the single-flight part of the claim.  The FIFO
queueing and notice of the claim do hold on this trace. -/
theorem C2_double_inflight_eval :
    inflight (coordRun
      [CoordEvent.trigger (s2l "A"), CoordEvent.trigger (s2l "B"),
       CoordEvent.finish 0, CoordEvent.trigger (s2l "C"), CoordEvent.drain 0]) = 2 ∧
    (coordRun
      [CoordEvent.trigger (s2l "A"), CoordEvent.trigger (s2l "B"),
       CoordEvent.finish 0, CoordEvent.trigger (s2l "C"), CoordEvent.drain 0]).started =
      [s2l "A", s2l "C", s2l "B"] ∧
    (coordRun
      [CoordEvent.trigger (s2l "A"), CoordEvent.trigger (s2l "B"),
       CoordEvent.finish 0, CoordEvent.trigger (s2l "C"), CoordEvent.drain 0]).queuedNotices =
      [(s2l "B", 1)] := by
  decide

/- ===================== C7: action identifier deduplication ===================== -/

/-- One observable action event of the Output Interpreter: a pending question
added for the user, or a recorded file operation (type and path preview).
Both carry the kind that produced them. -/
inductive ToolEvent where
  | questionAdded (header : List Char)
  | fileChange (kind : List Char) (path : List Char)
  deriving DecidableEq, Repr

/-- Dedup-and-emission state of one agent invocation: the processed tool
identifiers (the shared set of src/bot.py line 906) and the action events
emitted so far, most recent last. -/
structure ToolState where
  processedToolIds : List (List Char)
  events : List ToolEvent
  deriving DecidableEq, Repr

/-- Initial state of an invocation. -/
def toolInit : ToolState := { processedToolIds := [], events := [] }

/-- Tool names recorded as file operations (src/bot.py line 972). -/
def fileToolNames : List (List Char) :=
  [s2l "Write", s2l "Edit", s2l "Bash", s2l "Read", s2l "Glob", s2l "Grep"]

/-- Embedding of _process_tool_use (src/bot.py lines 948-984), the handler
shared between the normal parse path and the oversized-line path: a truthy
identifier already in the shared set returns at once, otherwise it is added;
an ask-user tool appends its questions, the plan-approval tool appends the
canned approval question, and the file tools append a file-change record.
The progress-display edit of the file-tool branch is environmental. -/
def processToolUse (st : ToolState) (toolId : Option (List Char)) (toolName : List Char)
    (input : List Char) : ToolState :=
  let dedup :=
    match toolId with
    | some tid =>
        if tid ≠ [] then
          if st.processedToolIds.contains tid then none
          else some { st with processedToolIds := st.processedToolIds ++ [tid] }
        else some st
    | none => some st
  match dedup with
  | none => st
  | some st1 =>
      if toolName = s2l "AskUserQuestion" then
        { st1 with events := st1.events ++ [ToolEvent.questionAdded input] }
      else if toolName = s2l "ExitPlanMode" then
        { st1 with events := st1.events ++ [ToolEvent.questionAdded (s2l "Plan Approval")] }
      else if fileToolNames.contains toolName then
        { st1 with events := st1.events ++ [ToolEvent.fileChange toolName (input.take 100)] }
      else st1

/-- Embedding of the tool_use handling of the oversized-line path
(src/bot.py lines 1082-1128) for one recovered marker, after the regex
extraction of identifier, name and argument preview: an identifier already
in the shared set is skipped, otherwise the identifier is added to the set
and only then is the shared handler called with the recovered preview. -/
def processToolUseBypass (st : ToolState) (toolId : List Char) (toolName : List Char)
    (input : List Char) : ToolState :=
  if st.processedToolIds.contains toolId then st
  else
    let st1 := { st with processedToolIds := st.processedToolIds ++ [toolId] }
    processToolUse st1 (some toolId) toolName input

/-- C7 evaluated at the failing input: replaying the same oversized-line Bash
action marker, identifier toolu_01, twice through the bypass path emits zero
action events — not the one event the claim requires.  The bypass path first
adds the identifier to the shared dedup set and then calls the shared
handler, which immediately drops the action as a duplicate, so even the
first occurrence is lost; a third replay through the normal path is likewise
suppressed.  The claim is right that a repeated identifier is never emitted
twice; the code under-delivers by emitting nothing at all from the bypass
path. -/
theorem C7_bypass_emits_nothing_eval :
    (processToolUseBypass
      (processToolUseBypass toolInit (s2l "toolu_01") (s2l "Bash") (s2l "ls -la"))
      (s2l "toolu_01") (s2l "Bash") (s2l "ls -la")).events = [] ∧
    (processToolUse
      (processToolUseBypass
        (processToolUseBypass toolInit (s2l "toolu_01") (s2l "Bash") (s2l "ls -la"))
        (s2l "toolu_01") (s2l "Bash") (s2l "ls -la"))
      (some (s2l "toolu_01")) (s2l "Bash") (s2l "ls -la")).events = [] ∧
    (processToolUse toolInit (some (s2l "toolu_01")) (s2l "Bash") (s2l "ls -la")).events =
      [ToolEvent.fileChange (s2l "Bash") (s2l "ls -la")] := by
  decide

/- ===================== C6: large-line text equivalence ===================== -/

/-- Hexadecimal digit characters. -/
def hexDigits : List Char := s2l "0123456789abcdef"

/-- Lower-case hexadecimal digit of a value below sixteen. -/
def hexDig (n : Nat) : Char := hexDigits.getD n '0'

/-- Value of a hexadecimal digit character, either case. -/
def hexVal (c : Char) : Option Nat :=
  if '0' ≤ c ∧ c ≤ '9' then some (c.toNat - 48)
  else if 'a' ≤ c ∧ c ≤ 'f' then some (c.toNat - 87)
  else if 'A' ≤ c ∧ c ≤ 'F' then some (c.toNat - 55)
  else none

/-- JSON string escaping of one character, as a producer of the line would
emit it: the quote and backslash escapes, the short named escapes, a
four-digit unicode escape for the remaining control characters, and every
other character verbatim. -/
def escChar (c : Char) : List Char :=
  if c = '"' then ['\\', '"']
  else if c = '\\' then ['\\', '\\']
  else if c = '\n' then ['\\', 'n']
  else if c = '\t' then ['\\', 't']
  else if c = '\r' then ['\\', 'r']
  else if c = '\x08' then ['\\', 'b']
  else if c = '\x0c' then ['\\', 'f']
  else if c.toNat < 32 then ['\\', 'u', '0', '0', hexDig (c.toNat / 16), hexDig (c.toNat % 16)]
  else [c]

/-- JSON string escaping of a text block. -/
def escapeJson : List Char → List Char
  | [] => []
  | c :: cs => escChar c ++ escapeJson cs

/-- Embedding of the character-collection loop of the oversized-line text
extraction (src/bot.py lines 1057-1068): walk the region after the opening
quote of a text value, carrying backslash pairs through, stopping at the
first unescaped quote; a trailing lone backslash is carried and the loop
ends at the end of the scanned region. -/
def scanJsonString : List Char → List Char
  | [] => []
  | c :: rest =>
      if c = '\\' then
        match rest with
        | [] => [c]
        | c2 :: rest2 => c :: c2 :: scanJsonString rest2
      else if c = '"' then []
      else c :: scanJsonString rest

/-- Embedding of json.loads applied to the re-quoted extracted text
(src/bot.py line 1072): decode the JSON string escapes, rejecting an
unescaped quote, a raw control character, a bad escape, or an out-of-range
unicode escape, in which cases the source keeps the escaped text as is.
Surrogate escapes are rejected here; the encoder above never produces them. -/
def jsonUnescape : List Char → Option (List Char)
  | [] => some []
  | c :: rest =>
      if c = '\\' then
        match rest with
        | [] => none
        | e :: rest2 =>
            if e = 'u' then
              match rest2 with
              | h1 :: h2 :: h3 :: h4 :: rest3 =>
                  match hexVal h1, hexVal h2, hexVal h3, hexVal h4 with
                  | some a, some b, some cc, some d =>
                      let n := a * 4096 + b * 256 + cc * 16 + d
                      if n < 55296 ∨ (57344 ≤ n ∧ n < 1114112) then
                        (jsonUnescape rest3).map (fun t => Char.ofNat n :: t)
                      else none
                  | _, _, _, _ => none
              | _ => none
            else if e = '"' then (jsonUnescape rest2).map (fun t => '"' :: t)
            else if e = '\\' then (jsonUnescape rest2).map (fun t => '\\' :: t)
            else if e = '/' then (jsonUnescape rest2).map (fun t => '/' :: t)
            else if e = 'b' then (jsonUnescape rest2).map (fun t => '\x08' :: t)
            else if e = 'f' then (jsonUnescape rest2).map (fun t => '\x0c' :: t)
            else if e = 'n' then (jsonUnescape rest2).map (fun t => '\n' :: t)
            else if e = 'r' then (jsonUnescape rest2).map (fun t => '\r' :: t)
            else if e = 't' then (jsonUnescape rest2).map (fun t => '\t' :: t)
            else none
      else if c = '"' then none
      else if c.toNat < 32 then none
      else (jsonUnescape rest).map (fun t => c :: t)

/-- The text-block marker regex of the oversized path (src/bot.py line 1055)
as a matcher at the head of a region: the literal pieces with optional
whitespace runs between them, returning the remainder after the opening
quote of the text value. -/
def matchMarker (cs : List Char) : Option (List Char) := do
  let r1 ← dropLit (s2l "\"type\"") cs
  let r3 ← dropLit [':'] (r1.dropWhile pyWs)
  let r5 ← dropLit (s2l "\"text\"") (r3.dropWhile pyWs)
  let r7 ← dropLit [','] (r5.dropWhile pyWs)
  let r9 ← dropLit (s2l "\"text\"") (r7.dropWhile pyWs)
  let r11 ← dropLit [':'] (r9.dropWhile pyWs)
  dropLit ['"'] (r11.dropWhile pyWs)

/-- Event production for one recovered text marker (src/bot.py lines
1056-1076): extract the raw value, decode its escapes when json.loads
succeeds and keep the raw form otherwise, and emit a text event unless the
result strips to nothing. -/
def mkEv (y : List Char) : List (List Char) :=
  let ex0 := scanJsonString y
  let ex :=
    match jsonUnescape ex0 with
    | some u => u
    | none => ex0
  if pyStripL ex = [] then [] else [ex]

/-- Fuel-indexed scan of the head region for text markers, mirroring
re.finditer: the leftmost match fires and scanning resumes at the match end
(the extraction region); each step consumes at least one character, so fuel
equal to the region length never runs out. -/
def bypassScanF : Nat → List Char → List (List Char)
  | 0, _ => []
  | n + 1, cs =>
      (matchMarker cs).elim
        (match cs with
         | [] => []
         | _ :: t => bypassScanF n t)
        (fun rest => mkEv rest ++ bypassScanF n rest)

/-- Text events of the oversized-assistant-line bypass over a head region. -/
def bypassScan (cs : List Char) : List (List Char) := bypassScanF cs.length cs

/-- Marker of a large tool-result line (src/bot.py line 1041). -/
def userMarker : List Char := s2l "\"type\":\"user\""

/-- Marker of a large assistant line (src/bot.py line 1049). -/
def assistantMarker : List Char := s2l "\"type\":\"assistant\""

/-- The three routes a raw line can take in the interpreter. -/
inductive LineRoute where
  | skipLargeUser
  | bypassLargeAssistant
  | fullParse
  deriving DecidableEq, Repr

/-- Routing of one raw line (src/bot.py lines 1041-1139): an oversized line
whose first two hundred characters carry the user marker is skipped, an
oversized line carrying the assistant marker takes the bypass, everything
else is fully parsed. -/
def routeLine (line : List Char) : LineRoute :=
  if 50000 < line.length ∧ containsSub (line.take 200) userMarker then .skipLargeUser
  else if 50000 < line.length ∧ containsSub (line.take 200) assistantMarker then
    .bypassLargeAssistant
  else .fullParse

/-- Text events of the oversized-assistant bypass path for a raw line: only
the first ten thousand characters are scanned (src/bot.py lines 1052-1054). -/
def oversizedAssistantTextEvents (line : List Char) : List (List Char) :=
  bypassScan (line.take 10000)

/-- Content block of a fully parsed assistant message. -/
inductive CBlock where
  | text (t : List Char)
  | toolUse (id name : List Char)
  deriving DecidableEq, Repr

/-- Text events of the normal full-parse path over parsed assistant content
(src/bot.py lines 1146-1153), with the empty-text guard of _process_text
(src/bot.py lines 990-991): each non-empty text block is one event. -/
def assistantTextEvents (content : List CBlock) : List (List Char) :=
  content.filterMap (fun b =>
    match b with
    | .text t => if t ≠ [] then some t else none
    | .toolUse _ _ => none)

/-- First sixty-five characters of the constructed oversized assistant line:
the JSON framing up to and including the opening quote of the text value. -/
def largePrefix : List Char :=
  s2l "\x7b\"type\":\"assistant\",\"message\":\x7b\"content\":[\x7b\"type\":\"text\",\"text\":\""

/-- The first forty-three characters of the prefix, before the text marker. -/
def pre43 : List Char := s2l "\x7b\"type\":\"assistant\",\"message\":\x7b\"content\":[\x7b"

/-- The twenty-two character text marker that closes the prefix. -/
def textMarker : List Char := s2l "\"type\":\"text\",\"text\":\""

/-- JSON framing after the closing quote of the text value: the text block
and content array are closed and a padding string field opens. -/
def largeSufTail : List Char := s2l "\x7d],\"pad\":\""

/-- Closing of the padding string, the message object and the root object. -/
def largeEnd : List Char := s2l "\"\x7d\x7d"

/-- A well-formed oversized assistant line containing the text block T:
the framing prefix, the escaped text, its closing quote, and a fifty-thousand
character padding string in a later field, which pushes the length past the
fifty-thousand threshold whatever T is. -/
def mkLargeLine (T : List Char) : List Char :=
  largePrefix ++ (escapeJson T ++ '"' :: (largeSufTail ++ (List.replicate 50000 'A' ++ largeEnd)))

/-- Decoding a hexadecimal digit of a value below sixteen recovers the value. -/
theorem hexVal_hexDig (m : Nat) (hm : m < 16) : hexVal (hexDig m) = some m := by
  interval_cases m <;> decide

/-- Hexadecimal digit characters are neither quotes nor backslashes. -/
theorem hexDig_safe (m : Nat) : hexDig m ≠ '"' ∧ hexDig m ≠ '\\' := by
  by_cases h : m < 16
  · interval_cases m <;> decide
  · have hlen : hexDigits.length ≤ m := by
      have : hexDigits.length = 16 := by decide
      omega
    unfold hexDig
    rw [List.getD_eq_default _ _ hlen]
    decide


/-- Unfolding: the extraction loop stops at an unescaped quote. -/
theorem scanJsonString_quote (rest : List Char) : scanJsonString ('"' :: rest) = [] := by
  rw [scanJsonString.eq_def]
  simp

/-- Unfolding: the extraction loop carries a backslash pair through. -/
theorem scanJsonString_pair (c2 : Char) (l : List Char) :
    scanJsonString ('\\' :: c2 :: l) = '\\' :: c2 :: scanJsonString l := by
  rw [scanJsonString.eq_def]
  simp

/-- Unfolding: the extraction loop carries an ordinary character through. -/
theorem scanJsonString_safe (c : Char) (l : List Char) (h1 : c ≠ '\\') (h2 : c ≠ '"') :
    scanJsonString (c :: l) = c :: scanJsonString l := by
  rw [scanJsonString.eq_def]
  simp [h1, h2]

/-- The extraction loop carries one escaped character through unchanged. -/
theorem scanJsonString_escChar (c : Char) (l : List Char) :
    scanJsonString (escChar c ++ l) = escChar c ++ scanJsonString l := by
  unfold escChar
  split_ifs with h1 h2 h3 h4 h5 h6 h7 h8
  · simp [scanJsonString_pair]
  · simp [scanJsonString_pair]
  · simp [scanJsonString_pair]
  · simp [scanJsonString_pair]
  · simp [scanJsonString_pair]
  · simp [scanJsonString_pair]
  · simp [scanJsonString_pair]
  · have d1 := hexDig_safe (c.toNat / 16)
    have d2 := hexDig_safe (c.toNat % 16)
    simp only [List.cons_append, List.nil_append, scanJsonString_pair]
    rw [scanJsonString_safe '0' _ (by decide) (by decide),
        scanJsonString_safe '0' _ (by decide) (by decide),
        scanJsonString_safe _ _ d1.2 d1.1, scanJsonString_safe _ _ d2.2 d2.1]
  · simp only [List.cons_append, List.nil_append]
    rw [scanJsonString_safe c _ h2 h1]

/-- The extraction loop recovers exactly the escaped text when a closing
quote follows it: nothing in the scanned region is lost or corrupted, up to
escaping. -/
theorem scanJsonString_esc (T rest : List Char) :
    scanJsonString (escapeJson T ++ '"' :: rest) = escapeJson T := by
  induction T with
  | nil => simp [escapeJson, scanJsonString_quote]
  | cons c cs ih =>
      simp only [escapeJson, List.append_assoc]
      rw [scanJsonString_escChar, ih]

/-- Unfolding: decoding of the named escapes. -/
theorem jsonUnescape_quote (l : List Char) :
    jsonUnescape ('\\' :: '"' :: l) = (jsonUnescape l).map (fun t => '"' :: t) := by
  rw [jsonUnescape.eq_def]
  simp

/-- Unfolding: decoding of an escaped backslash. -/
theorem jsonUnescape_backslash (l : List Char) :
    jsonUnescape ('\\' :: '\\' :: l) = (jsonUnescape l).map (fun t => '\\' :: t) := by
  rw [jsonUnescape.eq_def]
  simp

/-- Unfolding: decoding of the escaped newline. -/
theorem jsonUnescape_nl (l : List Char) :
    jsonUnescape ('\\' :: 'n' :: l) = (jsonUnescape l).map (fun t => '\n' :: t) := by
  rw [jsonUnescape.eq_def]
  simp

/-- Unfolding: decoding of the escaped tab. -/
theorem jsonUnescape_tab (l : List Char) :
    jsonUnescape ('\\' :: 't' :: l) = (jsonUnescape l).map (fun t => '\t' :: t) := by
  rw [jsonUnescape.eq_def]
  simp

/-- Unfolding: decoding of the escaped carriage return. -/
theorem jsonUnescape_cr (l : List Char) :
    jsonUnescape ('\\' :: 'r' :: l) = (jsonUnescape l).map (fun t => '\r' :: t) := by
  rw [jsonUnescape.eq_def]
  simp

/-- Unfolding: decoding of the escaped backspace. -/
theorem jsonUnescape_bs (l : List Char) :
    jsonUnescape ('\\' :: 'b' :: l) = (jsonUnescape l).map (fun t => '\x08' :: t) := by
  rw [jsonUnescape.eq_def]
  simp

/-- Unfolding: decoding of the escaped form feed. -/
theorem jsonUnescape_ff (l : List Char) :
    jsonUnescape ('\\' :: 'f' :: l) = (jsonUnescape l).map (fun t => '\x0c' :: t) := by
  rw [jsonUnescape.eq_def]
  simp

/-- Unfolding: decoding of an ordinary character. -/
theorem jsonUnescape_safe (c : Char) (l : List Char)
    (h1 : c ≠ '\\') (h2 : c ≠ '"') (h3 : ¬ c.toNat < 32) :
    jsonUnescape (c :: l) = (jsonUnescape l).map (fun t => c :: t) := by
  rw [jsonUnescape.eq_def]
  simp [h1, h2, h3]

/-- Unfolding: decoding of a unicode escape of a control character. -/
theorem jsonUnescape_unicode (v : Nat) (l : List Char) (hv : v < 32) :
    jsonUnescape ('\\' :: 'u' :: '0' :: '0' :: hexDig (v / 16) :: hexDig (v % 16) :: l) =
      (jsonUnescape l).map (fun t => Char.ofNat v :: t) := by
  have hd : v / 16 < 16 := by omega
  have hm : v % 16 < 16 := Nat.mod_lt _ (by omega)
  rw [jsonUnescape.eq_def]
  have hv0 : hexVal '0' = some 0 := by decide
  simp [hv0, hexVal_hexDig _ hd, hexVal_hexDig _ hm]
  have hn : v / 16 * 16 + v % 16 = v := by omega
  rw [hn, if_pos]
  omega

/-- Decoding one escaped character recovers it. -/
theorem jsonUnescape_escChar (c : Char) (l : List Char) :
    jsonUnescape (escChar c ++ l) = (jsonUnescape l).map (fun t => c :: t) := by
  unfold escChar
  split_ifs with h1 h2 h3 h4 h5 h6 h7 h8
  · subst h1
    simpa using jsonUnescape_quote l
  · subst h2
    simpa using jsonUnescape_backslash l
  · subst h3
    simpa using jsonUnescape_nl l
  · subst h4
    simpa using jsonUnescape_tab l
  · subst h5
    simpa using jsonUnescape_cr l
  · subst h6
    simpa using jsonUnescape_bs l
  · subst h7
    simpa using jsonUnescape_ff l
  · have := jsonUnescape_unicode c.toNat l h8
    simpa [Char.ofNat_toNat] using this
  · simpa using jsonUnescape_safe c l h2 h1 h8

/-- Decoding the escaped text recovers the original text block. -/
theorem jsonUnescape_escapeJson (T : List Char) :
    jsonUnescape (escapeJson T) = some T := by
  induction T with
  | nil => rfl
  | cons c cs ih =>
      simp only [escapeJson]
      rw [jsonUnescape_escChar, ih]
      rfl

/-- Scanning walks through a region in which no match starts, consuming one
character and one unit of fuel per position. -/
theorem bypassScanF_skip (pre : List Char) :
    ∀ (W : List Char) (n : Nat),
      (∀ p, p < pre.length → matchMarker (pre.drop p ++ W) = none) →
      bypassScanF (pre.length + n) (pre ++ W) = bypassScanF n W := by
  induction pre with
  | nil => simp
  | cons c pre ih =>
      intro W n h
      have h0 : matchMarker (c :: (pre ++ W)) = none := by
        have := h 0 (by simp)
        simpa using this
      have hshift : ∀ p, p < pre.length → matchMarker (pre.drop p ++ W) = none := by
        intro p hp
        have := h (p + 1) (by simp [Nat.succ_lt_succ hp])
        simpa using this
      have hlen : (c :: pre).length + n = (pre.length + n) + 1 := by
        simp [List.length_cons]
        omega
      rw [hlen]
      show bypassScanF ((pre.length + n) + 1) (c :: (pre ++ W)) = bypassScanF n W
      rw [show bypassScanF ((pre.length + n) + 1) (c :: (pre ++ W)) =
          (matchMarker (c :: (pre ++ W))).elim (bypassScanF (pre.length + n) (pre ++ W))
            (fun rest => mkEv rest ++ bypassScanF (pre.length + n) rest) from rfl]
      rw [h0]
      exact ih W n hshift

/-- The marker matches itself, leaving the remainder untouched. -/
theorem matchMarker_self (Y : List Char) : matchMarker (textMarker ++ Y) = some Y := rfl

/-- No marker match starts in the first forty-three characters of the
constructed prefix, whatever follows it: each attempt fails on a concrete
character of the prefix. -/
theorem matchMarker_pre43_none (W : List Char) :
    ∀ p, p < pre43.length → matchMarker (pre43.drop p ++ W) = none := by
  intro p hp
  have hlen : pre43.length = 43 := by decide
  rw [hlen] at hp
  interval_cases p <;> exact rfl

/-- Unfolding: one scan step on a region where no match starts. -/
theorem bypassScanF_succ_cons_none (n : Nat) (c : Char) (t : List Char)
    (h : matchMarker (c :: t) = none) : bypassScanF (n + 1) (c :: t) = bypassScanF n t := by
  show (matchMarker (c :: t)).elim (bypassScanF n t)
      (fun rest => mkEv rest ++ bypassScanF n rest) = bypassScanF n t
  rw [h]
  rfl

/-- Unfolding: one scan step on a region where a match fires. -/
theorem bypassScanF_succ_some (n : Nat) (cs rest : List Char)
    (h : matchMarker cs = some rest) :
    bypassScanF (n + 1) cs = mkEv rest ++ bypassScanF n rest := by
  cases cs with
  | nil =>
      have hnone : matchMarker [] = none := rfl
      rw [hnone] at h
      cases h
  | cons c t =>
      show (matchMarker (c :: t)).elim (bypassScanF n t)
          (fun rest => mkEv rest ++ bypassScanF n rest) = mkEv rest ++ bypassScanF n rest
      rw [h]
      rfl

/-- Every event the bypass scan emits has non-whitespace content: the strip
guard of the emission filters everything else. -/
theorem bypassScanF_mem_strip (n : Nat) :
    ∀ cs ev, ev ∈ bypassScanF n cs → pyStripL ev ≠ [] := by
  induction n with
  | zero =>
      intro cs ev h
      simp [bypassScanF] at h
  | succ m ih =>
      intro cs ev h
      cases hm : matchMarker cs with
      | some rest =>
          rw [bypassScanF_succ_some m cs rest hm] at h
          rcases List.mem_append.mp h with hL | hR
          · unfold mkEv at hL
            by_cases hs : pyStripL
                (match jsonUnescape (scanJsonString rest) with
                 | some u => u
                 | none => scanJsonString rest) = []
            · simp [hs] at hL
            · simp [hs] at hL
              rw [hL]
              exact hs
          · exact ih rest ev hR
      | none =>
          cases cs with
          | nil =>
              simp [bypassScanF, hm] at h
          | cons c t =>
              rw [bypassScanF_succ_cons_none m c t hm] at h
              exact ih t ev h

/-- The ten-thousand character head of the constructed line splits into the
prefix, the escaped text, its closing quote and a remainder, provided the
escaped text leaves room inside the scanned window. -/
theorem mkLargeLine_head_decomp (T : List Char) (hlen : (escapeJson T).length ≤ 9000) :
    ∃ rst, (mkLargeLine T).take 10000 =
      pre43 ++ (textMarker ++ (escapeJson T ++ '"' :: rst)) := by
  have hpre : largePrefix.length = 65 := by decide
  obtain ⟨k, hk⟩ : ∃ k, 9935 - (escapeJson T).length = k + 1 := ⟨9934 - (escapeJson T).length, by omega⟩
  refine ⟨(largeSufTail ++ (List.replicate 50000 'A' ++ largeEnd)).take k, ?_⟩
  unfold mkLargeLine
  rw [List.take_append_eq_append_take, List.take_of_length_le (by rw [hpre]; omega), hpre]
  rw [show (10000 : Nat) - 65 = 9935 from rfl]
  rw [List.take_append_eq_append_take, List.take_of_length_le (by omega), hk]
  rw [show ('"' :: (largeSufTail ++ (List.replicate 50000 'A' ++ largeEnd))).take (k + 1) =
      '"' :: (largeSufTail ++ (List.replicate 50000 'A' ++ largeEnd)).take k from rfl]
  rw [show largePrefix = pre43 ++ textMarker from rfl, List.append_assoc]

/-- Total length of the constructed line: always past the threshold. -/
theorem mkLargeLine_length (T : List Char) :
    (mkLargeLine T).length = 50079 + (escapeJson T).length := by
  have h1 : largePrefix.length = 65 := by decide
  have h2 : largeSufTail.length = 10 := by decide
  have h3 : largeEnd.length = 3 := by decide
  unfold mkLargeLine
  rw [List.length_append, List.length_append, List.length_cons, List.length_append,
    List.length_append, List.length_replicate, h1, h2, h3]
  omega

/-- The assistant marker sits inside the first two hundred characters of the
constructed line, whatever the text block is. -/
theorem mkLargeLine_assistant_marker (Z : List Char) :
    containsSub ((largePrefix ++ Z).take 200) assistantMarker = true := rfl

/-- Routing of the constructed line: given that the user marker is absent
from the first two hundred characters, the line takes the bypass. -/
theorem mkLargeLine_route (T : List Char)
    (huser : containsSub ((mkLargeLine T).take 200) userMarker = false) :
    routeLine (mkLargeLine T) = LineRoute.bypassLargeAssistant := by
  have hlen : 50000 < (mkLargeLine T).length := by
    rw [mkLargeLine_length]
    omega
  have hass : containsSub ((mkLargeLine T).take 200) assistantMarker = true :=
    mkLargeLine_assistant_marker (escapeJson T ++ '"' ::
      (largeSufTail ++ (List.replicate 50000 'A' ++ largeEnd)))
  unfold routeLine
  rw [if_neg, if_pos ⟨hlen, hass⟩]
  intro hcon
  rw [huser] at hcon
  exact Bool.false_ne_true hcon.2

/-- The bypass scan of the constructed oversized line emits a text event
whose text is exactly the embedded block, whenever the block has
non-whitespace content and fits in the scanned window. -/
theorem mkLargeLine_bypass_mem (T : List Char) (hT : pyStripL T ≠ [])
    (hlen : (escapeJson T).length ≤ 9000) :
    T ∈ oversizedAssistantTextEvents (mkLargeLine T) := by
  obtain ⟨rst, hdec⟩ := mkLargeLine_head_decomp T hlen
  unfold oversizedAssistantTextEvents bypassScan
  rw [hdec]
  rw [List.length_append]
  rw [bypassScanF_skip pre43 (textMarker ++ (escapeJson T ++ '"' :: rst))
    (textMarker ++ (escapeJson T ++ '"' :: rst)).length
    (matchMarker_pre43_none (textMarker ++ (escapeJson T ++ '"' :: rst)))]
  rw [List.length_append]
  rw [show textMarker.length = 22 from rfl]
  rw [show 22 + (escapeJson T ++ '"' :: rst).length =
      (21 + (escapeJson T ++ '"' :: rst).length) + 1 by omega]
  rw [bypassScanF_succ_some (21 + (escapeJson T ++ '"' :: rst).length)
    (textMarker ++ (escapeJson T ++ '"' :: rst)) (escapeJson T ++ '"' :: rst)
    (matchMarker_self (escapeJson T ++ '"' :: rst))]
  unfold mkEv
  rw [scanJsonString_esc T rst]
  simp only [jsonUnescape_escapeJson T]
  simp only [if_neg hT]
  exact List.mem_append.mpr (Or.inl (by simp))

/-- C6 counterexample: for the whitespace-only text block of a single space,
the under-threshold path emits a text event carrying that block, while the
oversized bypass path emits no event equal to it on the constructed
oversized line (its strip guard discards whitespace-only extractions), so
the two paths are not equivalent for every text block. -/
theorem C6_whitespace_lost_counterexample :
    assistantTextEvents [CBlock.text (s2l " ")] = [s2l " "] ∧
    routeLine (mkLargeLine (s2l " ")) = LineRoute.bypassLargeAssistant ∧
    s2l " " ∉ oversizedAssistantTextEvents (mkLargeLine (s2l " ")) := by
  refine ⟨by decide, mkLargeLine_route (s2l " ") (by decide), ?_⟩
  intro hmem
  unfold oversizedAssistantTextEvents bypassScan at hmem
  exact bypassScanF_mem_strip _ _ _ hmem (by decide)

/-- C6 amended: for every text block T with at least one non-whitespace
character that fits inside the scanned window, the under-threshold parse of
an assistant line containing T and the oversized bypass of the constructed
padded line containing the same T both produce a text event whose text
equals T — the bypass neither loses nor corrupts text genuinely present in
the scanned region.  The user-marker side condition states that T does not
fake a tool-result marker inside the first two hundred characters. -/
theorem C6_large_line_equivalence (T : List Char)
    (hT : pyStripL T ≠ [])
    (hlen : (escapeJson T).length ≤ 9000)
    (huser : containsSub ((mkLargeLine T).take 200) userMarker = false) :
    routeLine (mkLargeLine T) = LineRoute.bypassLargeAssistant ∧
    T ∈ oversizedAssistantTextEvents (mkLargeLine T) ∧
    assistantTextEvents [CBlock.text T] = [T] := by
  refine ⟨mkLargeLine_route T huser, mkLargeLine_bypass_mem T hT hlen, ?_⟩
  have hne : T ≠ [] := by
    intro h
    rw [h] at hT
    exact hT rfl
  simp [assistantTextEvents, hne]

/-- Witness for the C6 amended theorem at a concrete text block. -/
theorem C6_large_line_equivalence_witness :
    s2l "hello" ∈ oversizedAssistantTextEvents (mkLargeLine (s2l "hello")) ∧
    assistantTextEvents [CBlock.text (s2l "hello")] = [s2l "hello"] := by
  have h := C6_large_line_equivalence (s2l "hello") (by decide) (by decide) (by decide)
  exact ⟨h.2.1, h.2.2⟩
